import Mathlib

/-!
Verification development for a donation/payment platform consisting of a
transaction risk-scoring payments service and a recurring-billing
subscriptions service.

The payments side (PaymentsService.charge) is embedded as a pure state
transformer: money amounts and risk scores are rationals, timestamps are
integers in milliseconds since the epoch, and the two external effects
(the provider coin flip and the text produced by the language-model
collaborator on an explanation-cache miss) are passed in as explicit
inputs.

The subscriptions side (SubscriptionsService, BillingSchedulerService) is
embedded over an explicit calendar-date type mirroring the host date
arithmetic (day/month/year rollover with leap years), with the store
modelled as an insertion-ordered association list, matching the JS Map.
-/

/-- Fraud configuration loaded once at process start (fraud-config.json). -/
structure FraudConfig where
  amountThreshold : ℚ
  amountRisk : ℚ
  suspiciousDomains : List String
  domainRisk : ℚ
  velocityThreshold : ℕ
  velocityRisk : ℚ
  geoMismatchRisk : ℚ
deriving DecidableEq, Repr

/-- Charge request body (ChargeDto). -/
structure ChargeDto where
  amount : ℚ
  currency : String
  source : String
  email : String
  ipCountry : String
  billingCountry : String
deriving DecidableEq, Repr

/-- Transaction status union type: 'success' | 'blocked'. -/
inductive TxStatus where
  | success
  | blocked
deriving DecidableEq, Repr

/-- Transaction record appended to the in-memory ledger.
Timestamps are milliseconds since the epoch (the source stores an ISO
string and parses it back for comparisons, which is the same order). -/
structure Transaction where
  transactionId : String
  provider : Option String
  status : TxStatus
  riskScore : ℚ
  explanation : String
  timestamp : ℤ
  amount : ℚ
  currency : String
  email : String
deriving DecidableEq, Repr

/-- One hour in milliseconds: 60 * 60 * 1000. -/
def msPerHour : ℤ := 3600000

/-- `email.split('@')[1]?.toLowerCase() || ''`: the segment after the
first '@', lower-cased, or the empty string when there is no '@'. -/
def emailDomain (email : String) : String :=
  match email.splitOn "@" with
  | _ :: d :: _ => d.toLower
  | _ => ""

/-- Suspicious-domain predicate: some configured domain matches the email
domain exactly, as a sub-domain, or (for leading-dot entries) as a
suffix, case-insensitively. -/
def isSuspiciousDomain (cfg : FraudConfig) (email : String) : Bool :=
  let ed := emailDomain email
  cfg.suspiciousDomains.any fun domain =>
    let dl := domain.toLower
    if dl.startsWith "." then ed.endsWith dl
    else ed == dl || ed.endsWith ("." ++ dl)

/-- The velocity scan: prior ledger entries with the same email whose
timestamp is strictly greater than `now` minus one hour
(`new Date(t.timestamp) > oneHourAgo`). -/
def recentCharges (transactions : List Transaction) (email : String) (now : ℤ) :
    List Transaction :=
  transactions.filter fun t => t.email == email && decide (now - msPerHour < t.timestamp)

/-- Large-amount heuristic predicate: strict greater-than the threshold. -/
def amountTriggered (cfg : FraudConfig) (dto : ChargeDto) : Bool :=
  decide (cfg.amountThreshold < dto.amount)

/-- Velocity heuristic predicate: recent-charge count at least the threshold. -/
def velocityTriggered (cfg : FraudConfig) (count : ℕ) : Bool :=
  decide (cfg.velocityThreshold ≤ count)

/-- Geolocation-mismatch predicate: both countries non-empty (JS string
truthiness) and different. -/
def geoTriggered (dto : ChargeDto) : Bool :=
  !(dto.ipCountry == "") && !(dto.billingCountry == "") &&
    !(dto.ipCountry == dto.billingCountry)

/-- Undocumented extra heuristic: flat increment when the IP country is RU. -/
def ruTriggered (dto : ChargeDto) : Bool :=
  dto.ipCountry == "RU"

/-- The reasons list as assembled from the five heuristic flags, in the
fixed evaluation order of the source. -/
def partsOfFlags (b1 b2 b3 b4 b5 : Bool) : List String :=
  (if b1 then ["large amount"] else []) ++
  (if b2 then ["suspicious email domain"] else []) ++
  (if b3 then ["multiple charges in short time"] else []) ++
  (if b4 then ["geolocation mismatch"] else []) ++
  (if b5 then ["Russian IP address"] else [])

/-- The explanationParts list built by `charge` for a request, given the
recent-charge count. -/
def explanationParts (cfg : FraudConfig) (dto : ChargeDto) (count : ℕ) : List String :=
  partsOfFlags (amountTriggered cfg dto) (isSuspiciousDomain cfg dto.email)
    (velocityTriggered cfg count) (geoTriggered dto) (ruTriggered dto)

/-- The raw risk score: base 0.1 plus the configured increment of every
triggered heuristic (0.4 flat for the RU heuristic), before capping. -/
def rawRiskScore (cfg : FraudConfig) (dto : ChargeDto) (count : ℕ) : ℚ :=
  1/10 + (if amountTriggered cfg dto then cfg.amountRisk else 0)
       + (if isSuspiciousDomain cfg dto.email then cfg.domainRisk else 0)
       + (if velocityTriggered cfg count then cfg.velocityRisk else 0)
       + (if geoTriggered dto then cfg.geoMismatchRisk else 0)
       + (if ruTriggered dto then 2/5 else 0)

/-- The raw risk score with the velocity term omitted (all other heuristic
terms as in `rawRiskScore`). -/
def rawScoreSansVelocity (cfg : FraudConfig) (dto : ChargeDto) : ℚ :=
  1/10 + (if amountTriggered cfg dto then cfg.amountRisk else 0)
       + (if isSuspiciousDomain cfg dto.email then cfg.domainRisk else 0)
       + (if geoTriggered dto then cfg.geoMismatchRisk else 0)
       + (if ruTriggered dto then 2/5 else 0)

/-- `Math.min(riskScore, 1)`: the capped score the routing decision and the
stored score are computed from. -/
def chargeRisk (cfg : FraudConfig) (dto : ChargeDto) (ledger : List Transaction)
    (now : ℤ) : ℚ :=
  min (rawRiskScore cfg dto (recentCharges ledger dto.email now).length) 1

/-- Rounding to two decimal places (`Number(x.toFixed(2))`). -/
def round2 (q : ℚ) : ℚ :=
  (⌊q * 100 + 1/2⌋ : ℤ) / 100

/-- The two-decimal string rendering used inside the cache key
(`riskScore.toFixed(2)`). -/
def toFixed2 (q : ℚ) : String :=
  let n : ℤ := ⌊q * 100 + 1/2⌋
  let sign := if n < 0 then "-" else ""
  let m := n.natAbs
  sign ++ toString (m / 100) ++ "." ++ (if m % 100 < 10 then "0" else "") ++ toString (m % 100)

/-- LLM explanation cache key:
`provider|riskScore.toFixed(2)|reasons.sort().join(',')` with a null
provider rendered as the string "null". -/
def llmKey (provider : Option String) (riskScore : ℚ) (reasons : List String) : String :=
  (match provider with
   | some p => p
   | none => "null") ++ "|" ++ toFixed2 riskScore ++ "|" ++
    String.intercalate "," (List.insertionSort (· ≤ ·) reasons)

/-- In-memory mutable state of PaymentsService: the transaction ledger and
the explanation cache (a JS Map, modelled as an association list in
insertion order). -/
structure PayState where
  transactions : List Transaction
  llmCache : List (String × String)
deriving DecidableEq, Repr

/-- Initial state of a process run: empty ledger, empty cache. -/
def initPayState : PayState := ⟨[], []⟩

/-- Map.get on the cache. -/
def cacheLookup : List (String × String) → String → Option String
  | [], _ => none
  | (k', v) :: rest, k => if k' == k then some v else cacheLookup rest k

/-- Map.set on the cache: replace an existing binding in place, else
append at the end. -/
def cacheSet : List (String × String) → String → String → List (String × String)
  | [], k, v => [(k, v)]
  | (k', v') :: rest, k, v =>
    if k' == k then (k, v) :: rest else (k', v') :: cacheSet rest k v

/-- External inputs consumed by one `charge` call: the request body, the
current time, the generated transaction id, the provider coin flip
(`Math.random() < 0.5`), and the text the collaborator would produce on a
cache miss. -/
structure ChargeInput where
  dto : ChargeDto
  now : ℤ
  txnId : String
  providerCoin : Bool
  llmText : String
deriving DecidableEq, Repr

/-- The recent-charge count a `charge` call computes from the state. -/
def stepCount (s : PayState) (inp : ChargeInput) : ℕ :=
  (recentCharges s.transactions inp.dto.email inp.now).length

/-- The capped risk score of one `charge` call. -/
def stepRisk (cfg : FraudConfig) (s : PayState) (inp : ChargeInput) : ℚ :=
  min (rawRiskScore cfg inp.dto (stepCount s inp)) 1

/-- The explanationParts of one `charge` call. -/
def stepParts (cfg : FraudConfig) (s : PayState) (inp : ChargeInput) : List String :=
  explanationParts cfg inp.dto (stepCount s inp)

/-- The provider routing of one `charge` call: a coin flip between the
two symbolic providers when the risk is below the threshold, none
otherwise. -/
def stepProvider (cfg : FraudConfig) (thr : ℚ) (s : PayState)
    (inp : ChargeInput) : Option String :=
  if stepRisk cfg s inp < thr then
    some (if inp.providerCoin then "stripe" else "paypal")
  else none

/-- The status of one `charge` call. -/
def stepStatus (cfg : FraudConfig) (thr : ℚ) (s : PayState)
    (inp : ChargeInput) : TxStatus :=
  if stepRisk cfg s inp < thr then .success else .blocked

/-- The cache key of one `charge` call. -/
def stepKey (cfg : FraudConfig) (thr : ℚ) (s : PayState) (inp : ChargeInput) : String :=
  llmKey (stepProvider cfg thr s inp) (stepRisk cfg s inp) (stepParts cfg s inp)

/-- The explanation of one `charge` call: the cached text on a hit, the
collaborator's text on a miss. -/
def stepExplanation (cfg : FraudConfig) (thr : ℚ) (s : PayState)
    (inp : ChargeInput) : String :=
  match cacheLookup s.llmCache (stepKey cfg thr s inp) with
  | some e => e
  | none => inp.llmText

/-- The cache after one `charge` call: unchanged on a hit, the
collaborator's text stored under the key on a miss. -/
def stepCache (cfg : FraudConfig) (thr : ℚ) (s : PayState)
    (inp : ChargeInput) : List (String × String) :=
  match cacheLookup s.llmCache (stepKey cfg thr s inp) with
  | some _ => s.llmCache
  | none => cacheSet s.llmCache (stepKey cfg thr s inp) inp.llmText

/-- One `charge` call: scores the request against the ledger, decides
routing against the block threshold, resolves the explanation through the
cache, and appends the transaction.  Returns the transaction, the
triggered reasons, and the new state. -/
def chargeStep (cfg : FraudConfig) (blockThreshold : ℚ) (s : PayState)
    (inp : ChargeInput) : Transaction × List String × PayState :=
  let tx : Transaction :=
    { transactionId := inp.txnId
      provider := stepProvider cfg blockThreshold s inp
      status := stepStatus cfg blockThreshold s inp
      riskScore := round2 (stepRisk cfg s inp)
      explanation := stepExplanation cfg blockThreshold s inp
      timestamp := inp.now
      amount := inp.dto.amount
      currency := inp.dto.currency
      email := inp.dto.email }
  (tx, stepParts cfg s inp,
   { transactions := s.transactions ++ [tx]
     llmCache := stepCache cfg blockThreshold s inp })

/-- A sequence of charge calls within one process run. -/
def runCharges (cfg : FraudConfig) (thr : ℚ) (s : PayState) :
    List ChargeInput → PayState
  | [] => s
  | inp :: rest => runCharges cfg thr (chargeStep cfg thr s inp).2.2 rest

/-- The (transaction, reasons) pairs emitted by a sequence of charge
calls, in completion order. -/
def chargeTrace (cfg : FraudConfig) (thr : ℚ) (s : PayState) :
    List ChargeInput → List (Transaction × List String)
  | [] => []
  | inp :: rest =>
    let r := chargeStep cfg thr s inp
    (r.1, r.2.1) :: chargeTrace cfg thr r.2.2 rest

/-- getTransactions: the in-memory log, as is. -/
def getTransactions (s : PayState) : List Transaction :=
  s.transactions

/-- Billing interval union type: 'weekly' | 'monthly' | 'yearly'. -/
inductive BillingInterval where
  | weekly
  | monthly
  | yearly
deriving DecidableEq, Repr

/-- Subscription lifecycle status: 'active' | 'cancelled'. -/
inductive SubStatus where
  | active
  | cancelled
deriving DecidableEq, Repr

/-- A calendar instant, mirroring the host Date fields: year, month
(0-based, 0..11 when normalized), day of month (1-based) and milliseconds
within the day. -/
structure CalDate where
  year : ℤ
  month : ℤ
  day : ℤ
  msOfDay : ℤ
deriving DecidableEq, Repr

/-- Gregorian leap-year rule. -/
def isLeapYear (y : ℤ) : Bool :=
  (y % 4 == 0 && y % 100 != 0) || y % 400 == 0

/-- Days in a (0-based) month of a year. -/
def daysInMonth (y m : ℤ) : ℤ :=
  if m == 1 then (if isLeapYear y then 29 else 28)
  else if m == 3 || m == 5 || m == 8 || m == 10 then 30
  else 31

/-- Roll an over-large day of month forward into the following months,
as the host date arithmetic does after setDate/setMonth/setFullYear.
Fuel-bounded; every use here overflows by at most a few months. -/
def normDay : ℕ → CalDate → CalDate
  | 0, d => d
  | fuel + 1, d =>
    if daysInMonth d.year d.month < d.day then
      let rest := d.day - daysInMonth d.year d.month
      let d' : CalDate :=
        if d.month == 11 then ⟨d.year + 1, 0, rest, d.msOfDay⟩
        else ⟨d.year, d.month + 1, rest, d.msOfDay⟩
      normDay fuel d'
    else d

/-- Roll an over-large month into the year, then the day into the month. -/
def dateNormalize (d : CalDate) : CalDate :=
  normDay 24 ⟨d.year + d.month / 12, d.month % 12, d.day, d.msOfDay⟩

/-- calculateNextBillingDate: weekly adds 7 days (setDate),
monthly adds one calendar month (setMonth), yearly adds one calendar year
(setFullYear), with the host rollover normalization. -/
def calculateNextBillingDate (fromDate : CalDate) : BillingInterval → CalDate
  | .weekly => dateNormalize ⟨fromDate.year, fromDate.month, fromDate.day + 7, fromDate.msOfDay⟩
  | .monthly => dateNormalize ⟨fromDate.year, fromDate.month + 1, fromDate.day, fromDate.msOfDay⟩
  | .yearly => dateNormalize ⟨fromDate.year + 1, fromDate.month, fromDate.day, fromDate.msOfDay⟩

/-- Order on normalized calendar instants (lexicographic on the fields),
matching comparison of the underlying epoch timestamps. -/
def CalDate.leb (a b : CalDate) : Bool :=
  decide (a.year < b.year) ||
  (a.year == b.year && (decide (a.month < b.month) ||
    (a.month == b.month && (decide (a.day < b.day) ||
      (a.day == b.day && decide (a.msOfDay ≤ b.msOfDay))))))

/-- Subscription record (subscription.entity). -/
structure Subscription where
  donorId : String
  amount : ℚ
  currency : String
  source : String
  email : String
  interval : BillingInterval
  campaignDescription : String
  tags : List String
  summary : String
  status : SubStatus
  createdAt : CalDate
  lastBilledAt : Option CalDate
  nextBillingAt : CalDate
  successfulCharges : ℕ
  failedCharges : ℕ
deriving DecidableEq, Repr

/-- Subscription creation request body (CreateSubscriptionDto). -/
structure CreateSubscriptionDto where
  donorId : String
  amount : ℚ
  currency : String
  source : String
  email : String
  interval : BillingInterval
  campaignDescription : String
deriving DecidableEq, Repr

/-- Result of the campaign-analysis collaborator (tags and summary),
passed in as an input. -/
structure CampaignAnalysis where
  tags : List String
  summary : String
deriving DecidableEq, Repr

/-- Donation transaction status: 'success' | 'failed'. -/
inductive DonStatus where
  | success
  | failed
deriving DecidableEq, Repr

/-- DonationTransaction record for one billing-cycle outcome. -/
structure DonationTransaction where
  transactionId : String
  donorId : String
  amount : ℚ
  currency : String
  status : DonStatus
  provider : String
  errorMessage : Option String
  timestamp : CalDate
  campaignDescription : String
  tags : List String
  summary : String
deriving DecidableEq, Repr

/-- Named error conditions raised by the subscription store
(BadRequestException / NotFoundException with their messages). -/
inductive SubError where
  | alreadyExists (donorId : String)
  | notFound (donorId : String)
  | alreadyCancelled (donorId : String)
deriving DecidableEq, Repr

/-- The subscription store: a JS Map keyed by donor id, modelled as an
insertion-ordered association list. -/
abbrev SubStore : Type := List (String × Subscription)

/-- Map.get on the store. -/
def storeLookup : SubStore → String → Option Subscription
  | [], _ => none
  | (k, v) :: rest, d => if k == d then some v else storeLookup rest d

/-- Map.set on an existing key: replace the bound record in place,
keeping insertion order; append when absent. -/
def storeSet : SubStore → String → Subscription → SubStore
  | [], d, sub => [(d, sub)]
  | (k, v) :: rest, d, sub =>
    if k == d then (d, sub) :: rest else (k, v) :: storeSet rest d sub

/-- Map.values: records in insertion order. -/
def storeValues (st : SubStore) : List Subscription :=
  st.map Prod.snd

/-- Outcome of createSubscription: the error or the created record, the
resulting store, and whether the campaign-analysis collaborator was
invoked. -/
structure CreateResult where
  outcome : Except SubError Subscription
  store : SubStore
  analysisPerformed : Bool

/-- createSubscription: reject when the donor id is already present
(before any campaign analysis); otherwise run the analysis, build the
record with status active, zero counters, createdAt now and
nextBillingAt computed from the interval, and store it. -/
def createSubscription (st : SubStore) (dto : CreateSubscriptionDto)
    (analysis : CampaignAnalysis) (now : CalDate) : CreateResult :=
  if (storeLookup st dto.donorId).isSome then
    ⟨.error (.alreadyExists dto.donorId), st, false⟩
  else
    let sub : Subscription :=
      { donorId := dto.donorId
        amount := dto.amount
        currency := dto.currency
        source := dto.source
        email := dto.email
        interval := dto.interval
        campaignDescription := dto.campaignDescription
        tags := analysis.tags
        summary := analysis.summary
        status := .active
        createdAt := now
        lastBilledAt := none
        nextBillingAt := calculateNextBillingDate now dto.interval
        successfulCharges := 0
        failedCharges := 0 }
    ⟨.ok sub, storeSet st dto.donorId sub, true⟩

/-- cancelSubscription: not-found when absent, already-cancelled when
cancelled, else set the status field to cancelled in place. -/
def cancelSubscription (st : SubStore) (donorId : String) :
    Except SubError (Subscription × SubStore) :=
  match storeLookup st donorId with
  | none => .error (.notFound donorId)
  | some sub =>
    if sub.status = .cancelled then .error (.alreadyCancelled donorId)
    else
      let sub' := { sub with status := .cancelled }
      .ok (sub', storeSet st donorId sub')

/-- getSubscriptionsDueForBilling: active records whose nextBillingAt is
not after now, in store order. -/
def getSubscriptionsDueForBilling (st : SubStore) (now : CalDate) : List Subscription :=
  (storeValues st).filter fun sub =>
    sub.status == .active && sub.nextBillingAt.leb now

/-- Randomness consumed by one simulated billing attempt, plus whether an
unexpected internal fault is raised inside the attempt. -/
structure BillingRand where
  isSuccess : Bool
  providerCoin : Bool
  internalFault : Bool
deriving DecidableEq, Repr

/-- processBilling: simulate the charge; on success or simulated failure
record the outcome and bump the matching counter; on an internal fault
record a failed transaction with the sentinel provider "unknown" and bump
the failure counter.  Returns the donation transaction and the updated
subscription. -/
def processBilling (sub : Subscription) (r : BillingRand) (now : CalDate)
    (txnId : String) : DonationTransaction × Subscription :=
  if r.internalFault then
    (⟨txnId, sub.donorId, sub.amount, sub.currency, .failed, "unknown",
      some "Internal processing error", now, sub.campaignDescription,
      sub.tags, sub.summary⟩,
     { sub with failedCharges := sub.failedCharges + 1 })
  else
    let provider := if r.providerCoin then "stripe" else "paypal"
    if r.isSuccess then
      (⟨txnId, sub.donorId, sub.amount, sub.currency, .success, provider,
        none, now, sub.campaignDescription, sub.tags, sub.summary⟩,
       { sub with successfulCharges := sub.successfulCharges + 1 })
    else
      (⟨txnId, sub.donorId, sub.amount, sub.currency, .failed, provider,
        some "Payment processing failed", now, sub.campaignDescription,
        sub.tags, sub.summary⟩,
       { sub with failedCharges := sub.failedCharges + 1 })

/-- updateBillingSchedule: set lastBilledAt to now and recompute
nextBillingAt from now and the interval. -/
def updateBillingSchedule (sub : Subscription) (now : CalDate) : Subscription :=
  { sub with
    lastBilledAt := some now
    nextBillingAt := calculateNextBillingDate now sub.interval }

/-- processSubscriptionBilling: run the billing attempt, then update the
billing schedule for the next cycle, regardless of the attempt outcome. -/
def processSubscriptionBilling (sub : Subscription) (r : BillingRand)
    (now : CalDate) (txnId : String) : DonationTransaction × Subscription :=
  let pr := processBilling sub r now txnId
  (pr.1, updateBillingSchedule pr.2 now)

def txC3 : Transaction :=
  ⟨"txn_0", none, .blocked, 1, "blocked", -3600000, 50, "USD", "a@b.com"⟩

def subW : Subscription :=
  ⟨"d1", 100, "USD", "tok", "a@b.com", .monthly, "camp", ["t1", "t2"], "sum",
    .cancelled, ⟨2024, 0, 1, 0⟩, none, ⟨2024, 1, 1, 0⟩, 0, 0⟩

def subA : Subscription :=
  ⟨"d2", 7, "USD", "tok", "c@d.com", .weekly, "camp2", ["t"], "s2",
    .active, ⟨2024, 5, 1, 0⟩, none, ⟨2024, 5, 8, 0⟩, 2, 1⟩

def ledgerV : List Transaction :=
  [⟨"t1", some "stripe", .success, 1/10, "e", 0, 10, "USD", "v@e.com"⟩,
   ⟨"t2", some "paypal", .success, 1/10, "e", 0, 10, "USD", "v@e.com"⟩,
   ⟨"t3", some "stripe", .success, 1/10, "e", 0, 10, "USD", "v@e.com"⟩]

def entryKey (e : Transaction × List String) : String :=
  llmKey e.1.provider e.1.riskScore e.2

def c5cfg : FraudConfig := ⟨1000, 1/2, [], 2/5, 3, 1/4, 1/5⟩

def c5inpA : ChargeInput :=
  ⟨⟨100, "USD", "tok", "a@a.com", "US", "US"⟩, 0, "txn_a", true, "first text"⟩

def c5inpB : ChargeInput :=
  ⟨⟨50, "EUR", "tok2", "b@b.com", "US", "US"⟩, 0, "txn_b", true, "second text"⟩

def c5e1 : Transaction × List String :=
  ((chargeStep c5cfg 1 initPayState c5inpA).1, (chargeStep c5cfg 1 initPayState c5inpA).2.1)

def c5state1 : PayState := (chargeStep c5cfg 1 initPayState c5inpA).2.2

def c5e2 : Transaction × List String :=
  ((chargeStep c5cfg 1 c5state1 c5inpB).1, (chargeStep c5cfg 1 c5state1 c5inpB).2.1)

lemma storeLookup_storeSet_ne (st : SubStore) (d d' : String) (v : Subscription)
    (h : d' ≠ d) : storeLookup (storeSet st d v) d' = storeLookup st d' := by
  induction st with
  | nil => simp [storeSet, storeLookup, beq_iff_eq, Ne.symm h]
  | cons hd tl ih =>
    obtain ⟨k, w⟩ := hd
    by_cases hk : k = d
    · subst hk
      simp [storeSet, storeLookup, beq_iff_eq, Ne.symm h]
    · simp [storeSet, storeLookup, beq_iff_eq, hk, ih]

/-- C1: a charge whose capped risk score is strictly below the block
threshold returns status success and one of the two symbolic providers;
any other charge returns status blocked with provider null. -/
theorem charge_decision_routing (cfg : FraudConfig) (thr : ℚ) (s : PayState)
    (inp : ChargeInput) :
    (chargeRisk cfg inp.dto s.transactions inp.now < thr →
      (chargeStep cfg thr s inp).1.status = .success ∧
      ((chargeStep cfg thr s inp).1.provider = some "stripe" ∨
        (chargeStep cfg thr s inp).1.provider = some "paypal")) ∧
    (¬ chargeRisk cfg inp.dto s.transactions inp.now < thr →
      (chargeStep cfg thr s inp).1.status = .blocked ∧
      (chargeStep cfg thr s inp).1.provider = none) := by
  have hrisk : stepRisk cfg s inp = chargeRisk cfg inp.dto s.transactions inp.now := rfl
  constructor
  · intro h
    rw [← hrisk] at h
    refine ⟨?_, ?_⟩
    · simp [chargeStep, stepStatus, if_pos h]
    · cases hc : inp.providerCoin <;>
        simp [chargeStep, stepProvider, if_pos h, hc]
  · intro h
    rw [← hrisk] at h
    exact ⟨by simp [chargeStep, stepStatus, if_neg h],
           by simp [chargeStep, stepProvider, if_neg h]⟩

theorem charge_decision_routing_witness :
    (chargeStep ⟨1000, 1/2, [], 2/5, 3, 2/5, 2/5⟩ (1/2) initPayState
        ⟨⟨100, "USD", "tok", "user@example.com", "US", "US"⟩, 0, "txn_1", true, "ok"⟩).1.status
      = .success := by
  have h := (charge_decision_routing ⟨1000, 1/2, [], 2/5, 3, 2/5, 2/5⟩ (1/2)
      initPayState ⟨⟨100, "USD", "tok", "user@example.com", "US", "US"⟩, 0, "txn_1", true, "ok"⟩).1
  refine (h ?_).1
  norm_num [chargeRisk, rawRiskScore, recentCharges, amountTriggered,
    isSuspiciousDomain, velocityTriggered, geoTriggered, ruTriggered, initPayState]
  rw [if_neg (show ¬ ("US" : String) = "RU" by decide)]
  norm_num

/-- C9: every charge appends exactly one transaction at the end of the
ledger and never rewrites earlier entries, and the transactions query
returns the ledger in completion order. -/
theorem charge_ledger_append (cfg : FraudConfig) (thr : ℚ) (s : PayState)
    (inp : ChargeInput) (inputs : List ChargeInput) :
    (chargeStep cfg thr s inp).2.2.transactions
        = s.transactions ++ [(chargeStep cfg thr s inp).1] ∧
    getTransactions (runCharges cfg thr s inputs)
        = s.transactions ++ (chargeTrace cfg thr s inputs).map Prod.fst := by
  refine ⟨rfl, ?_⟩
  induction inputs generalizing s with
  | nil => simp [runCharges, chargeTrace, getTransactions]
  | cons i rest ih =>
    simp only [runCharges, chargeTrace, List.map_cons]
    rw [ih]
    simp [chargeStep]

/-- C3 counterexample: a ledger entry for the same email whose timestamp
is exactly now minus one hour lies inside the closed window yet is not
counted by the velocity scan. -/
theorem velocity_window_boundary_counterexample :
    (txC3.email = "a@b.com" ∧ 0 - msPerHour ≤ txC3.timestamp ∧ txC3.timestamp ≤ 0) ∧
    recentCharges [txC3] "a@b.com" 0 = [] := by decide

/-- C3 amended: the velocity scan counts exactly the prior entries with
the same email whose timestamp is strictly greater than now minus one
hour; an entry exactly at the lower bound is excluded. -/
theorem velocity_window_strict_lower_bound (ledger : List Transaction)
    (email : String) (now : ℤ) (t : Transaction) :
    t ∈ recentCharges ledger email now ↔
      t ∈ ledger ∧ t.email = email ∧ now - msPerHour < t.timestamp := by
  simp [recentCharges, List.mem_filter, and_assoc]

/-- C6: the due-for-billing query returns exactly the stored records that
are active with nextBillingAt not after now; a cancelled record is never
returned. -/
theorem due_query_characterization (st : SubStore) (now : CalDate)
    (sub : Subscription) :
    (sub ∈ getSubscriptionsDueForBilling st now ↔
      sub ∈ storeValues st ∧ sub.status = .active ∧ sub.nextBillingAt.leb now = true) ∧
    (sub.status = .cancelled → sub ∉ getSubscriptionsDueForBilling st now) := by
  constructor
  · simp [getSubscriptionsDueForBilling, List.mem_filter, and_assoc]
  · intro hc hmem
    have := (by simpa [getSubscriptionsDueForBilling, List.mem_filter, and_assoc] using hmem :
      sub ∈ storeValues st ∧ sub.status = .active ∧ sub.nextBillingAt.leb now = true)
    rw [hc] at this
    exact absurd this.2.1 (by decide)

theorem due_query_characterization_witness :
    subW ∉ getSubscriptionsDueForBilling [("d1", subW)] ⟨2025, 0, 1, 0⟩ :=
  (due_query_characterization [("d1", subW)] ⟨2025, 0, 1, 0⟩ subW).2 rfl

/-- C7: after a billing attempt, whatever the outcome (success, simulated
failure, or internal fault), the subscription's lastBilledAt is the
processing time, the interval is unchanged, and nextBillingAt is that
time advanced by the interval. -/
theorem billing_schedule_invariant (sub : Subscription) (r : BillingRand)
    (now : CalDate) (txnId : String) :
    ((processSubscriptionBilling sub r now txnId).2.lastBilledAt = some now) ∧
    ((processSubscriptionBilling sub r now txnId).2.interval = sub.interval) ∧
    ((processSubscriptionBilling sub r now txnId).2.nextBillingAt
        = calculateNextBillingDate now sub.interval) := by
  obtain ⟨hs, hp, hf⟩ := r
  cases hf <;> cases hs <;>
    simp [processSubscriptionBilling, processBilling, updateBillingSchedule]

/-- C8: creating a subscription whose donor id is already present fails
with the named already-exists condition, leaves the store untouched and
performs no campaign analysis. -/
theorem duplicate_create_rejected (st : SubStore) (dto : CreateSubscriptionDto)
    (analysis : CampaignAnalysis) (now : CalDate)
    (h : (storeLookup st dto.donorId).isSome = true) :
    createSubscription st dto analysis now
      = ⟨.error (.alreadyExists dto.donorId), st, false⟩ := by
  unfold createSubscription
  rw [if_pos h]

theorem duplicate_create_rejected_witness :
    createSubscription [("d1", subW)]
        ⟨"d1", 5, "USD", "tok", "x@y.com", .weekly, "c"⟩ ⟨["a", "b"], "s"⟩ ⟨2025, 0, 1, 0⟩
      = ⟨.error (.alreadyExists "d1"), [("d1", subW)], false⟩ :=
  duplicate_create_rejected [("d1", subW)]
    ⟨"d1", 5, "USD", "tok", "x@y.com", .weekly, "c"⟩ ⟨["a", "b"], "s"⟩ ⟨2025, 0, 1, 0⟩
    (by decide)

/-- C10: cancelling an existing active subscription flips only its status
field to cancelled; every other field of the record and every other
record in the store are unchanged. -/
theorem cancel_frame_effect (st : SubStore) (d : String) (sub : Subscription)
    (hl : storeLookup st d = some sub) (ha : sub.status = .active) :
    ∃ sub' st', cancelSubscription st d = .ok (sub', st') ∧
      sub'.status = .cancelled ∧
      sub'.donorId = sub.donorId ∧ sub'.amount = sub.amount ∧
      sub'.currency = sub.currency ∧ sub'.source = sub.source ∧
      sub'.email = sub.email ∧ sub'.interval = sub.interval ∧
      sub'.campaignDescription = sub.campaignDescription ∧
      sub'.tags = sub.tags ∧ sub'.summary = sub.summary ∧
      sub'.createdAt = sub.createdAt ∧ sub'.lastBilledAt = sub.lastBilledAt ∧
      sub'.nextBillingAt = sub.nextBillingAt ∧
      sub'.successfulCharges = sub.successfulCharges ∧
      sub'.failedCharges = sub.failedCharges ∧
      (∀ d', d' ≠ d → storeLookup st' d' = storeLookup st d') := by
  refine ⟨{ sub with status := .cancelled },
    storeSet st d { sub with status := .cancelled }, ?_,
    rfl, rfl, rfl, rfl, rfl, rfl, rfl, rfl, rfl, rfl, rfl, rfl, rfl, rfl, rfl, ?_⟩
  · have hnc : ¬ sub.status = SubStatus.cancelled := by
      rw [ha]; intro hh; cases hh
    simp [cancelSubscription, hl, hnc]
  · intro d' hd
    exact storeLookup_storeSet_ne st d d' _ hd

theorem cancel_frame_effect_witness :
    ∃ sub' st',
      cancelSubscription [("d1", subW), ("d2", subA)] "d2" = .ok (sub', st') ∧
      sub'.status = .cancelled ∧
      sub'.donorId = subA.donorId ∧ sub'.amount = subA.amount ∧
      sub'.currency = subA.currency ∧ sub'.source = subA.source ∧
      sub'.email = subA.email ∧ sub'.interval = subA.interval ∧
      sub'.campaignDescription = subA.campaignDescription ∧
      sub'.tags = subA.tags ∧ sub'.summary = subA.summary ∧
      sub'.createdAt = subA.createdAt ∧ sub'.lastBilledAt = subA.lastBilledAt ∧
      sub'.nextBillingAt = subA.nextBillingAt ∧
      sub'.successfulCharges = subA.successfulCharges ∧
      sub'.failedCharges = subA.failedCharges ∧
      (∀ d', d' ≠ "d2" →
        storeLookup st' d' = storeLookup [("d1", subW), ("d2", subA)] d') :=
  cancel_frame_effect [("d1", subW), ("d2", subA)] "d2" subA (by decide) rfl

lemma mem_partsOfFlags_amount : ∀ b1 b2 b3 b4 b5 : Bool,
    ("large amount" ∈ partsOfFlags b1 b2 b3 b4 b5) ↔ b1 = true := by decide

lemma mem_partsOfFlags_domain : ∀ b1 b2 b3 b4 b5 : Bool,
    ("suspicious email domain" ∈ partsOfFlags b1 b2 b3 b4 b5) ↔ b2 = true := by decide

lemma mem_partsOfFlags_velocity : ∀ b1 b2 b3 b4 b5 : Bool,
    ("multiple charges in short time" ∈ partsOfFlags b1 b2 b3 b4 b5) ↔ b3 = true := by decide

lemma mem_partsOfFlags_geo : ∀ b1 b2 b3 b4 b5 : Bool,
    ("geolocation mismatch" ∈ partsOfFlags b1 b2 b3 b4 b5) ↔ b4 = true := by decide

lemma mem_partsOfFlags_ru : ∀ b1 b2 b3 b4 b5 : Bool,
    ("Russian IP address" ∈ partsOfFlags b1 b2 b3 b4 b5) ↔ b5 = true := by decide

lemma partsOfFlags_nodup : ∀ b1 b2 b3 b4 b5 : Bool,
    (partsOfFlags b1 b2 b3 b4 b5).Nodup := by decide

/-- C2: the velocity heuristic fires exactly when the recent-charge count
reaches the threshold: the reason is listed iff the count is at least the
threshold, in which case (and only then) velocityRisk is added. -/
theorem velocity_threshold_boundary (cfg : FraudConfig) (dto : ChargeDto)
    (ledger : List Transaction) (now : ℤ) :
    (("multiple charges in short time"
        ∈ explanationParts cfg dto (recentCharges ledger dto.email now).length) ↔
      cfg.velocityThreshold ≤ (recentCharges ledger dto.email now).length) ∧
    (cfg.velocityThreshold ≤ (recentCharges ledger dto.email now).length →
      rawRiskScore cfg dto (recentCharges ledger dto.email now).length
        = rawScoreSansVelocity cfg dto + cfg.velocityRisk) ∧
    ((recentCharges ledger dto.email now).length < cfg.velocityThreshold →
      rawRiskScore cfg dto (recentCharges ledger dto.email now).length
        = rawScoreSansVelocity cfg dto) := by
  refine ⟨?_, ?_, ?_⟩
  · exact (mem_partsOfFlags_velocity _ _ _ _ _).trans
      (by simp [velocityTriggered])
  · intro h
    have hv : velocityTriggered cfg (recentCharges ledger dto.email now).length = true :=
      decide_eq_true h
    simp only [rawRiskScore, rawScoreSansVelocity, hv, if_true]
    ring
  · intro h
    have hv : velocityTriggered cfg (recentCharges ledger dto.email now).length = false :=
      decide_eq_false (not_le.mpr h)
    simp only [rawRiskScore, rawScoreSansVelocity, hv, Bool.false_eq_true, if_false]
    ring

theorem velocity_threshold_boundary_witness :
    rawRiskScore ⟨1000, 1/2, [], 2/5, 3, 1/4, 1/5⟩
        ⟨100, "USD", "tok", "v@e.com", "US", "US"⟩
        (recentCharges ledgerV "v@e.com" 1000).length
      = rawScoreSansVelocity ⟨1000, 1/2, [], 2/5, 3, 1/4, 1/5⟩
          ⟨100, "USD", "tok", "v@e.com", "US", "US"⟩ + 1/4 :=
  (velocity_threshold_boundary ⟨1000, 1/2, [], 2/5, 3, 1/4, 1/5⟩
      ⟨100, "USD", "tok", "v@e.com", "US", "US"⟩ ledgerV 1000).2.1
    (by decide)

lemma iteRisk_nonneg {b : Bool} {q : ℚ} (hq : 0 ≤ q) :
    0 ≤ if b then q else 0 := by
  cases b <;> simp [hq]

lemma iteRisk_mono {b b' : Bool} (h : b = true → b' = true) {q : ℚ}
    (hq : 0 ≤ q) : (if b then q else 0) ≤ (if b' then q else 0) := by
  cases b with
  | false => cases b' <;> simp [hq]
  | true => rw [h rfl]

/-- C4: with nonnegative configured increments, the capped risk score lies
in the closed interval from 0 to 1, and it is monotone: a request whose
triggered-heuristic set is contained in another's scores no higher. -/
theorem risk_score_bounds_monotone (cfg : FraudConfig)
    (ha : 0 ≤ cfg.amountRisk) (hd : 0 ≤ cfg.domainRisk)
    (hv : 0 ≤ cfg.velocityRisk) (hg : 0 ≤ cfg.geoMismatchRisk)
    (dto₁ dto₂ : ChargeDto) (ledger₁ ledger₂ : List Transaction) (now₁ now₂ : ℤ) :
    (0 ≤ chargeRisk cfg dto₁ ledger₁ now₁ ∧ chargeRisk cfg dto₁ ledger₁ now₁ ≤ 1) ∧
    ((∀ rsn, rsn ∈ explanationParts cfg dto₁ (recentCharges ledger₁ dto₁.email now₁).length →
        rsn ∈ explanationParts cfg dto₂ (recentCharges ledger₂ dto₂.email now₂).length) →
      chargeRisk cfg dto₁ ledger₁ now₁ ≤ chargeRisk cfg dto₂ ledger₂ now₂) := by
  have raw_nonneg : ∀ (dto : ChargeDto) (c : ℕ), 0 ≤ rawRiskScore cfg dto c := by
    intro dto c
    unfold rawRiskScore
    have h110 : (0:ℚ) ≤ 1/10 := by norm_num
    have h25 : (0:ℚ) ≤ 2/5 := by norm_num
    exact add_nonneg (add_nonneg (add_nonneg (add_nonneg (add_nonneg h110
      (iteRisk_nonneg ha)) (iteRisk_nonneg hd)) (iteRisk_nonneg hv)) (iteRisk_nonneg hg)) (iteRisk_nonneg h25)
  refine ⟨⟨le_min (raw_nonneg _ _) (by norm_num), min_le_right _ _⟩, ?_⟩
  intro hsub
  have h1 : amountTriggered cfg dto₁ = true → amountTriggered cfg dto₂ = true :=
    fun hb => (mem_partsOfFlags_amount _ _ _ _ _).mp
      (hsub _ ((mem_partsOfFlags_amount _ _ _ _ _).mpr hb))
  have h2 : isSuspiciousDomain cfg dto₁.email = true → isSuspiciousDomain cfg dto₂.email = true :=
    fun hb => (mem_partsOfFlags_domain _ _ _ _ _).mp
      (hsub _ ((mem_partsOfFlags_domain _ _ _ _ _).mpr hb))
  have h3 : velocityTriggered cfg (recentCharges ledger₁ dto₁.email now₁).length = true →
      velocityTriggered cfg (recentCharges ledger₂ dto₂.email now₂).length = true :=
    fun hb => (mem_partsOfFlags_velocity _ _ _ _ _).mp
      (hsub _ ((mem_partsOfFlags_velocity _ _ _ _ _).mpr hb))
  have h4 : geoTriggered dto₁ = true → geoTriggered dto₂ = true :=
    fun hb => (mem_partsOfFlags_geo _ _ _ _ _).mp
      (hsub _ ((mem_partsOfFlags_geo _ _ _ _ _).mpr hb))
  have h5 : ruTriggered dto₁ = true → ruTriggered dto₂ = true :=
    fun hb => (mem_partsOfFlags_ru _ _ _ _ _).mp
      (hsub _ ((mem_partsOfFlags_ru _ _ _ _ _).mpr hb))
  have hraw : rawRiskScore cfg dto₁ (recentCharges ledger₁ dto₁.email now₁).length
      ≤ rawRiskScore cfg dto₂ (recentCharges ledger₂ dto₂.email now₂).length := by
    unfold rawRiskScore
    have h25 : (0:ℚ) ≤ 2/5 := by norm_num
    exact add_le_add (add_le_add (add_le_add (add_le_add (add_le_add (le_refl (1/10))
      (iteRisk_mono h1 ha)) (iteRisk_mono h2 hd)) (iteRisk_mono h3 hv))
      (iteRisk_mono h4 hg)) (iteRisk_mono h5 h25)
  exact min_le_min hraw (le_refl 1)

theorem risk_score_bounds_monotone_witness :
    (0 ≤ chargeRisk ⟨1000, 1/2, [], 2/5, 3, 1/4, 1/5⟩
        ⟨100, "USD", "tok", "a@a.com", "US", "US"⟩ [] 0 ∧
      chargeRisk ⟨1000, 1/2, [], 2/5, 3, 1/4, 1/5⟩
        ⟨100, "USD", "tok", "a@a.com", "US", "US"⟩ [] 0 ≤ 1) ∧
    chargeRisk ⟨1000, 1/2, [], 2/5, 3, 1/4, 1/5⟩
        ⟨100, "USD", "tok", "a@a.com", "US", "US"⟩ [] 0
      ≤ chargeRisk ⟨1000, 1/2, [], 2/5, 3, 1/4, 1/5⟩
          ⟨2000, "USD", "tok", "b@b.com", "US", "US"⟩ [] 0 := by
  have h := risk_score_bounds_monotone ⟨1000, 1/2, [], 2/5, 3, 1/4, 1/5⟩
    (by norm_num) (by norm_num) (by norm_num) (by norm_num)
    ⟨100, "USD", "tok", "a@a.com", "US", "US"⟩
    ⟨2000, "USD", "tok", "b@b.com", "US", "US"⟩ [] [] 0 0
  refine ⟨h.1, h.2 ?_⟩
  intro rsn hr
  have hempty : explanationParts ⟨1000, 1/2, [], 2/5, 3, 1/4, 1/5⟩
      ⟨100, "USD", "tok", "a@a.com", "US", "US"⟩
      (recentCharges [] "a@a.com" 0).length = [] := by
    norm_num [explanationParts, partsOfFlags, amountTriggered, isSuspiciousDomain,
      velocityTriggered, geoTriggered, ruTriggered, recentCharges]
    decide
  rw [hempty] at hr
  exact absurd hr (List.not_mem_nil rsn)

lemma cacheLookup_cacheSet (c : List (String × String)) (k v k' : String) :
    cacheLookup (cacheSet c k v) k'
      = if k = k' then some v else cacheLookup c k' := by
  induction c with
  | nil =>
    by_cases h : k = k' <;> simp [cacheSet, cacheLookup, h]
  | cons hd tl ih =>
    obtain ⟨hk, hv⟩ := hd
    by_cases h1 : hk = k
    · subst h1
      by_cases h2 : hk = k' <;>
        simp [cacheSet, cacheLookup, h2]
    · by_cases h2 : hk = k'
      · subst h2
        have : ¬ k = hk := fun hh => h1 hh.symm
        simp [cacheSet, cacheLookup, h1, this]
      · simp [cacheSet, cacheLookup, h1, h2, ih]

lemma stepCache_bind (cfg : FraudConfig) (thr : ℚ) (s : PayState) (inp : ChargeInput) :
    cacheLookup (stepCache cfg thr s inp) (stepKey cfg thr s inp)
      = some (stepExplanation cfg thr s inp) := by
  unfold stepCache stepExplanation
  cases h : cacheLookup s.llmCache (stepKey cfg thr s inp) with
  | some e => simpa using h
  | none => simp [cacheLookup_cacheSet]

lemma stepCache_mono (cfg : FraudConfig) (thr : ℚ) (s : PayState) (inp : ChargeInput)
    (k v : String) (h : cacheLookup s.llmCache k = some v) :
    cacheLookup (stepCache cfg thr s inp) k = some v := by
  unfold stepCache
  cases hk : cacheLookup s.llmCache (stepKey cfg thr s inp) with
  | some e => exact h
  | none =>
    rw [cacheLookup_cacheSet]
    by_cases he : stepKey cfg thr s inp = k
    · rw [he] at hk; rw [hk] at h; cases h
    · rw [if_neg he]; exact h

lemma runCharges_cache_mono (cfg : FraudConfig) (thr : ℚ) :
    ∀ (inputs : List ChargeInput) (s : PayState) (k v : String),
      cacheLookup s.llmCache k = some v →
      cacheLookup (runCharges cfg thr s inputs).llmCache k = some v := by
  intro inputs
  induction inputs with
  | nil => intro s k v h; exact h
  | cons i rest ih =>
    intro s k v h
    exact ih _ k v (stepCache_mono cfg thr s i k v h)

lemma floor_round2_mul (q : ℚ) :
    ⌊round2 q * 100 + 1/2⌋ = ⌊q * 100 + 1/2⌋ := by
  unfold round2
  rw [div_mul_cancel₀ _ (by norm_num : (100:ℚ) ≠ 0)]
  rw [add_comm, Int.floor_add_int]
  norm_num

lemma toFixed2_round2 (q : ℚ) : toFixed2 (round2 q) = toFixed2 q := by
  unfold toFixed2
  rw [floor_round2_mul]

lemma emitted_entryKey (cfg : FraudConfig) (thr : ℚ) (s : PayState) (inp : ChargeInput) :
    entryKey ((chargeStep cfg thr s inp).1, (chargeStep cfg thr s inp).2.1)
      = stepKey cfg thr s inp := by
  show llmKey (stepProvider cfg thr s inp) (round2 (stepRisk cfg s inp)) (stepParts cfg s inp)
      = llmKey (stepProvider cfg thr s inp) (stepRisk cfg s inp) (stepParts cfg s inp)
  unfold llmKey
  rw [toFixed2_round2]

lemma trace_cache_faithful (cfg : FraudConfig) (thr : ℚ) :
    ∀ (inputs : List ChargeInput) (s : PayState) (e : Transaction × List String),
      e ∈ chargeTrace cfg thr s inputs →
      cacheLookup (runCharges cfg thr s inputs).llmCache (entryKey e)
        = some e.1.explanation := by
  intro inputs
  induction inputs with
  | nil => intro s e h; exact absurd h (List.not_mem_nil e)
  | cons i rest ih =>
    intro s e h
    rcases List.mem_cons.mp h with he | he
    · subst he
      have h1 : cacheLookup (chargeStep cfg thr s i).2.2.llmCache
          (entryKey ((chargeStep cfg thr s i).1, (chargeStep cfg thr s i).2.1))
            = some (chargeStep cfg thr s i).1.explanation := by
        rw [emitted_entryKey]
        exact stepCache_bind cfg thr s i
      exact runCharges_cache_mono cfg thr rest _ _ _ h1
    · exact ih _ e he

lemma trace_reasons_nodup (cfg : FraudConfig) (thr : ℚ) :
    ∀ (inputs : List ChargeInput) (s : PayState) (e : Transaction × List String),
      e ∈ chargeTrace cfg thr s inputs → e.2.Nodup := by
  intro inputs
  induction inputs with
  | nil => intro s e h; exact absurd h (List.not_mem_nil e)
  | cons i rest ih =>
    intro s e h
    rcases List.mem_cons.mp h with he | he
    · subst he
      exact partsOfFlags_nodup _ _ _ _ _
    · exact ih _ e he

lemma insertionSort_eq_of_mem_iff {l₁ l₂ : List String} (h₁ : l₁.Nodup)
    (h₂ : l₂.Nodup) (h : ∀ a, a ∈ l₁ ↔ a ∈ l₂) :
    List.insertionSort (· ≤ ·) l₁ = List.insertionSort (· ≤ ·) l₂ := by
  have hp : l₁.Perm l₂ := (List.perm_ext_iff_of_nodup h₁ h₂).mpr h
  exact List.eq_of_perm_of_sorted
    (((List.perm_insertionSort _ l₁).trans hp).trans
      (List.perm_insertionSort _ l₂).symm)
    (List.sorted_insertionSort _ l₁) (List.sorted_insertionSort _ l₂)

/-- C5: within one run, any two charge decisions with the same provider,
the same stored (two-decimal) risk score and the same set of triggered
reasons carry identical explanation text, whatever else differs between
the requests. -/
theorem explanation_fingerprint_deterministic (cfg : FraudConfig) (thr : ℚ)
    (s : PayState) (inputs : List ChargeInput) (e₁ e₂ : Transaction × List String)
    (h₁ : e₁ ∈ chargeTrace cfg thr s inputs) (h₂ : e₂ ∈ chargeTrace cfg thr s inputs)
    (hp : e₁.1.provider = e₂.1.provider) (hsc : e₁.1.riskScore = e₂.1.riskScore)
    (hr : ∀ rsn, rsn ∈ e₁.2 ↔ rsn ∈ e₂.2) :
    e₁.1.explanation = e₂.1.explanation := by
  have hk : entryKey e₁ = entryKey e₂ := by
    unfold entryKey llmKey
    rw [hp, hsc, insertionSort_eq_of_mem_iff
      (trace_reasons_nodup cfg thr inputs s e₁ h₁)
      (trace_reasons_nodup cfg thr inputs s e₂ h₂) hr]
  have f₁ := trace_cache_faithful cfg thr inputs s e₁ h₁
  have f₂ := trace_cache_faithful cfg thr inputs s e₂ h₂
  rw [hk, f₂] at f₁
  exact (Option.some.injEq _ _).mp f₁.symm

lemma c5riskA : stepRisk c5cfg initPayState c5inpA = 1/10 := by
  have hUSRU : ¬ ("US" : String) = "RU" := by decide
  norm_num [stepRisk, stepCount, rawRiskScore, recentCharges, amountTriggered,
    isSuspiciousDomain, velocityTriggered, geoTriggered, ruTriggered,
    initPayState, c5cfg, c5inpA, hUSRU]

lemma c5riskB : stepRisk c5cfg c5state1 c5inpB = 1/10 := by
  have hUSRU : ¬ ("US" : String) = "RU" := by decide
  have hab : (("a@a.com" : String) == "b@b.com") = false := by decide
  norm_num [stepRisk, stepCount, rawRiskScore, recentCharges, amountTriggered,
    isSuspiciousDomain, velocityTriggered, geoTriggered, ruTriggered,
    c5state1, chargeStep, initPayState, c5cfg, c5inpA, c5inpB, hUSRU, hab]

lemma c5partsA : c5e1.2 = [] := by
  have hUSRU : ¬ ("US" : String) = "RU" := by decide
  show stepParts c5cfg initPayState c5inpA = []
  norm_num [stepParts, stepCount, explanationParts, partsOfFlags, recentCharges,
    amountTriggered, isSuspiciousDomain, velocityTriggered, geoTriggered,
    ruTriggered, initPayState, c5cfg, c5inpA, hUSRU]

lemma c5partsB : c5e2.2 = [] := by
  have hUSRU : ¬ ("US" : String) = "RU" := by decide
  have hab : (("a@a.com" : String) == "b@b.com") = false := by decide
  show stepParts c5cfg c5state1 c5inpB = []
  norm_num [stepParts, stepCount, explanationParts, partsOfFlags, recentCharges,
    amountTriggered, isSuspiciousDomain, velocityTriggered, geoTriggered,
    ruTriggered, c5state1, chargeStep, initPayState, c5cfg, c5inpA, c5inpB, hUSRU, hab]

lemma c5providerA : c5e1.1.provider = some "stripe" := by
  show stepProvider c5cfg 1 initPayState c5inpA = some "stripe"
  unfold stepProvider
  rw [c5riskA, if_pos (by norm_num : (1/10 : ℚ) < 1)]
  rfl

lemma c5providerB : c5e2.1.provider = some "stripe" := by
  show stepProvider c5cfg 1 c5state1 c5inpB = some "stripe"
  unfold stepProvider
  rw [c5riskB, if_pos (by norm_num : (1/10 : ℚ) < 1)]
  rfl

theorem explanation_fingerprint_deterministic_witness :
    c5e1.1.explanation = c5e2.1.explanation := by
  refine explanation_fingerprint_deterministic c5cfg 1 initPayState
    [c5inpA, c5inpB] c5e1 c5e2 (List.Mem.head _)
    (List.Mem.tail _ (List.Mem.head _))
    (c5providerA.trans c5providerB.symm) ?_ ?_
  · show round2 (stepRisk c5cfg initPayState c5inpA)
        = round2 (stepRisk c5cfg c5state1 c5inpB)
    rw [c5riskA, c5riskB]
  · rw [c5partsA, c5partsB]
    exact fun rsn => Iff.rfl
